import Mathlib

/-
Verification of the Kobo metadata-source plugin (query-and-scrape pipeline).

The definitions below are a shallow embedding of `src/kobo_metadata.py`
(class `KoboMetadataImpl`, the final implementation per the design notes).
HTML documents are modelled by the `Page` structure, whose fields record
exactly the element lists that the source inspects through its xpath
queries.  Python string primitives (`str.replace`, `str.split`,
`str.strip`, `str.lower`, `str.translate` with `string.punctuation`,
`str.lstrip("0")`) are embedded as executable functions over `List Char`.
External host collaborators (tokenizers, date parser, author fixer) are
modelled from the spec where noted.
-/

namespace Kobo

/-- Python exception kinds that the embedded code can raise. -/
inductive PyErr where
  | index_error
  | unbound_local_error
  | type_error
  | assertion_error
deriving DecidableEq

/-! ### Python string primitives -/

/-- Python `str.lower` restricted to ASCII (the only case the plugin meets). -/
def char_lower (c : Char) : Char :=
  if 'A' ≤ c ∧ c ≤ 'Z' then Char.ofNat (c.toNat + 32) else c

/-- `str.lower` over a whole string. -/
def py_lower (s : String) : String := ⟨s.data.map char_lower⟩

/-- Characters removed by Python `str.strip()` with no argument. -/
def is_py_space (c : Char) : Bool :=
  c = ' ' || c = '\t' || c = '\n' || c = '\x0d' || c = '\x0b' || c = '\x0c'

/-- Python `str.strip()`: drop leading and trailing whitespace. -/
def py_strip (s : String) : String :=
  ⟨((s.data.dropWhile is_py_space).reverse.dropWhile is_py_space).reverse⟩

/-- Membership in Python `string.punctuation`
(ASCII 33-47, 58-64, 91-96, 123-126). -/
def is_py_punct (c : Char) : Bool :=
  (33 ≤ c.toNat && c.toNat ≤ 47) || (58 ≤ c.toNat && c.toNat ≤ 64) ||
  (91 ≤ c.toNat && c.toNat ≤ 96) || (123 ≤ c.toNat && c.toNat ≤ 126)

/-- `title.translate(str.maketrans("", "", string.punctuation))`:
delete every punctuation character. -/
def strip_punctuation (s : String) : String :=
  ⟨s.data.filter (fun c => !is_py_punct c)⟩

/-- Python `str.split(sep)` for a single-character separator: splits on every
occurrence, keeping empty pieces (`"a,,b".split(",") == ["a","","b"]`,
`"".split(",") == [""]`). -/
def py_split_char (sep : Char) : List Char → List (List Char)
  | [] => [[]]
  | c :: rest =>
    let r := py_split_char sep rest
    if c = sep then [] :: r
    else
      match r with
      | h :: t => (c :: h) :: t
      | [] => [[c]]

/-- Python `str.replace(pat, rep)` on character lists: replace every
non-overlapping occurrence left to right.  The fuel argument only bounds the
recursion; it is called with the length of the string, and each step consumes
at least one character, so the `0` case is never reached from `py_replace`.
(Python's special behaviour for an empty pattern is not modelled; every
pattern the plugin uses is non-empty.) -/
def replace_fuel (pat rep : List Char) : Nat → List Char → List Char
  | _, [] => []
  | 0, s => s
  | fuel + 1, c :: rest =>
    if !pat.isEmpty && pat.isPrefixOf (c :: rest) then
      rep ++ replace_fuel pat rep fuel ((c :: rest).drop pat.length)
    else
      c :: replace_fuel pat rep fuel rest

/-- Python `s.replace(pat, rep)`. -/
def py_replace (s pat rep : String) : String :=
  ⟨replace_fuel pat.data rep.data s.data.length s.data⟩

/-- Substring test on character lists. -/
def contains_chars (hay pat : List Char) : Bool :=
  hay.tails.any (fun t => pat.isPrefixOf t)

/-- Python `pat in hay` for strings. -/
def py_contains (hay pat : String) : Bool := contains_chars hay.data pat.data

/-- Python `x.lstrip("0")`: drop leading zero characters. -/
def lstrip_zeroes (x : List Char) : List Char := x.dropWhile (· = '0')

/-- `" ".join(tokens)` over character-list tokens. -/
def join_sp : List (List Char) → List Char
  | [] => []
  | [l] => l
  | l :: l2 :: rest => l ++ ' ' :: join_sp (l2 :: rest)

/-- Uppercase hexadecimal digit, as used by `urllib.parse.quote_plus`. -/
def hex_digit (n : Nat) : Char :=
  if n < 10 then Char.ofNat (48 + n) else Char.ofNat (55 + n)

/-- `urllib.parse.quote_plus` on one ASCII character: space becomes `+`,
alphanumerics and `-_.~` pass through, anything else is percent-encoded. -/
def quote_plus_char (c : Char) : List Char :=
  if c = ' ' then ['+']
  else if c.isAlphanum || c = '-' || c = '_' || c = '.' || c = '~' then [c]
  else ['%', hex_digit (c.toNat / 16), hex_digit (c.toNat % 16)]

/-- `urllib.parse.quote_plus` over a string (ASCII model). -/
def quote_plus (s : String) : String := ⟨s.data.flatMap quote_plus_char⟩

/-! ### Data model -/

/-- The per-run configuration (`prefs`), with the plugin's declared
option defaults. -/
structure Prefs where
  country : String := "us"
  language : String := "all"
  num_matches : Nat := 1
  title_blacklist : String := ""
  tag_blacklist : String := ""
  remove_leading_zeroes : Bool := false
  resize_cover : Bool := false
deriving DecidableEq

/-- One `span.series.product-field` element of a detail page, with the
element lists reached by the two nested xpath queries. -/
structure SeriesElem where
  name_elems : List String := []
  seq_prefix_elems : List String := []
deriving DecidableEq

/-- One `li` entry of the secondary-metadata details list: its own text and
the texts of its `span` children. -/
structure DetailElem where
  text : String := ""
  span_texts : List String := []
deriving DecidableEq

/-- An HTML document as the plugin observes it: one field per xpath query the
source performs.  Each field records the matched elements (their text or the
harvested attribute), in document order. -/
structure Page where
  challenge_form_class : Bool := false
  challenge_form_id : Bool := false
  challenge_error_text : Bool := false
  search_widget : Bool := false
  new_title_links : List String := []
  old_title_links : List String := []
  title_elems : List String := []
  author_elems : List String := []
  series_elems : List SeriesElem := []
  detail_elems : List DetailElem := []
  genre_elems : List String := []
  synopsis_elems : List String := []
  cover_elems : List String := []
deriving DecidableEq

/-- The normalized metadata record (`calibre` `Metadata` as the plugin
fills it). -/
structure BookMeta where
  title : String
  authors : List String
  series : Option String := none
  series_index : Option String := none
  publisher : Option String := none
  pubdate : Option String := none
  isbn : Option String := none
  language : Option String := none
  tags : List String := []
  comments : Option String := none
deriving DecidableEq

/-- A write to the host's identifier-to-cover-URL cache:
`cache_identifier_to_cover_url(metadata.isbn, cover_url)`. -/
abbrev CacheWrite := Option String × String

/-- Truthiness of the blacklist-check results (`None` and the empty set are
falsy; a non-empty set is truthy). -/
def option_truthy : Option (List String) → Bool
  | none => false
  | some l => !l.isEmpty

/-! ### External host collaborators (not part of this repository) -/

/-- Modelled from the spec: the host author-name fixer is "a pure function
over text, externally supplied" that normalizes ordering artifacts; its
effect on names is irrelevant to every claim, so it is embedded as the
identity normalization. -/
def fixauthors (authors : List String) : List String := authors

/-- Modelled from the spec: the host date parser turns the release-date text
into a date value; the value itself is inspected by no claim, so the parsed
date is represented by its source text. -/
def parse_only_date (s : String) : String := s

/-- Modelled from the spec: the host title tokenizer is "an external
collaborator that returns an ordered sequence of tokens"; embedded as
splitting on spaces and dropping empty pieces. -/
def get_title_tokens (title : String) : List (List Char) :=
  (py_split_char ' ' title.data).filter (· ≠ [])

/-- Modelled from the spec: the host author tokenizer, embedded as splitting
every author name on spaces and dropping empty pieces. -/
def get_author_tokens (authors : List String) : List (List Char) :=
  ((authors.map (·.data)).flatMap (py_split_char ' ')).filter (· ≠ [])

/-! ### Web fetcher (`_get_webpage`) -/

/-- What one `session.get` attempt produces: an exception, or a parsed page
together with the response's final (post-redirect) URL. -/
inductive Attempt where
  | exn
  | ok (page : Page) (url : String)
deriving DecidableEq

/-- The three exit points of `_get_webpage`: a fetched page with its
search-vs-detail classification; the give-up exit after 15 challenge pages
(materialized in Python as the `(None, False)` return after the loop — the
spec's `BotChallengeError`); and the exception handler's `(None, False)`
return. -/
inductive GetResult where
  | success (page : Page) (is_search : Bool)
  | bot_challenge
  | exception_caught
deriving DecidableEq

/-- The interstitial-challenge probe: any of the three marker elements. -/
def is_challenge_page (p : Page) : Bool :=
  p.challenge_form_class || p.challenge_form_id || p.challenge_error_text

/-- The retry loop of `_get_webpage`: `attempts` counts from 0 while `< 15`;
`fuel` is the remaining allowance `15 - i`. -/
def get_webpage_loop (f : Nat → Attempt) (i : Nat) : Nat → GetResult
  | 0 => .bot_challenge
  | fuel + 1 =>
    match f i with
    | .exn => .exception_caught
    | .ok page url =>
      if is_challenge_page page then get_webpage_loop f (i + 1) fuel
      else .success page (py_contains url "/search?")
def get_webpage (f : Nat → Attempt) : GetResult := get_webpage_loop f 0 15

/-- The tuple the Python callers actually receive from `_get_webpage`:
both failure exits materialize as `(None, False)`. -/
def to_py_result : GetResult → Option Page × Bool
  | .success p b => (some p, b)
  | .bot_challenge => (none, false)
  | .exception_caught => (none, false)

/-! ### Query builder (`get_search_url`, `_generate_query`) -/

/-- `get_search_url`: the search-endpoint URL template with url-encoded
query parameters in the source's dict order. -/
def get_search_url (prefs : Prefs) (search_str : String) (page_number : Nat) : String :=
  "https://www.kobo.com/" ++ prefs.country ++ "/en/search?query=" ++ quote_plus search_str ++
    "&fcmedia=Book&pageNumber=" ++ toString page_number ++ "&fclanguages=" ++ prefs.language

/-- `_generate_query`: join the title tokens (each optionally stripped of
leading zeroes) with spaces; if any authors are given, append a space and the
joined author tokens. -/
def generate_query (remove_leading_zeroes : Bool) (title : String) (authors : List String) : String :=
  let t := join_sp ((get_title_tokens title).map
    (fun x => if remove_leading_zeroes then lstrip_zeroes x else x))
  if authors.isEmpty then ⟨t⟩
  else ⟨t ++ ' ' :: join_sp (get_author_tokens authors)⟩

/-! ### Search paginator (`_parse_search_page`, `_perform_query`) -/

/-- `result_elements[::2]`: every second element, starting with the first. -/
def every_second {α : Type} : List α → List α
  | [] => []
  | [a] => [a]
  | a :: _ :: rest => a :: every_second rest

/-- `_parse_search_page`: the new-variant result list interleaves a mobile
and a web link per result, so only every second link is kept; otherwise the
old-variant links are returned; an empty page yields no candidates. -/
def parse_search_page (page : Page) : List String :=
  if page.search_widget then every_second page.new_title_links
  else if !page.old_title_links.isEmpty then page.old_title_links
  else []

/-- The pagination `while` loop of `_perform_query`: fetch further pages
while fewer than `max_matches` candidates are collected and `page_num` is
below `max_page_num = 4`; a later page that is missing or not
search-classified trips the `assert`.  `fuel` only bounds the recursion: the
loop body runs for `page_num = 2, 3` at most, so any `fuel ≥ 2` gives the
loop's exact behaviour. -/
def perform_query_loop (web : String → Option Page × Bool) (prefs : Prefs) (query : String)
    (max_matches : Nat) : Nat → Nat → List String → Except PyErr (List String)
  | 0, _, results => .ok (results.take max_matches)
  | fuel + 1, page_num, results =>
    if results.length < max_matches ∧ page_num < 4 then
      match web (get_search_url prefs query page_num) with
      | (some page, true) =>
        perform_query_loop web prefs query max_matches fuel (page_num + 1)
          (results ++ parse_search_page page)
      | _ => .error .assertion_error
    else .ok (results.take max_matches)

/-- `_perform_query`: fetch page 1; a missing page yields no candidates; a
non-search classification (redirect straight to a product page) yields that
single URL; otherwise paginate and truncate to `max_matches`. -/
def perform_query (web : String → Option Page × Bool) (prefs : Prefs) (query : String)
    (max_matches : Nat) : Except PyErr (List String) :=
  let url := get_search_url prefs query 1
  match web url with
  | (none, _) => .ok []
  | (some page, is_search) =>
    if !is_search then .ok [url]
    else perform_query_loop web prefs query max_matches 2 2 (parse_search_page page)

/-! ### Blacklist filter -/

/-- The comma-separated blacklist preference, split on commas with each piece
stripped and lowercased (the set comprehension in the source). -/
def split_blacklist (pref : String) : List String :=
  (py_split_char ',' pref.data).map (fun l => py_lower (py_strip ⟨l⟩))

/-- `_check_title_blacklist`: `None` for an empty preference, otherwise the
set of blacklisted words that also occur in the punctuation-stripped,
lowercased title split on spaces. -/
def check_title_blacklist (pref : String) (title : String) : Option (List String) :=
  if pref = "" then none
  else
    let blacklisted := split_blacklist pref
    let title_str := strip_punctuation title
    some (blacklisted.filter
      (fun w => (py_split_char ' ' (py_lower title_str).data).contains w.data))

/-- `_check_tag_blacklist`: `None` for an empty preference, otherwise the set
of blacklisted tags that also occur among the lowercased tags. -/
def check_tag_blacklist (pref : String) (tags : List String) : Option (List String) :=
  if pref = "" then none
  else some ((split_blacklist pref).filter (fun b => (tags.map py_lower).contains b))

/-! ### Page parser (`_parse_book_page_for_cover`, `_parse_book_page`) -/

/-- The pure cover-URL string transform: prefix the scheme-relative `src`
with `https:`; with resize on, substitute the `353/569/90` size segment by
`width/height/100`; with resize off, delete the whole `353/569/90/False/`
segment. -/
def derive_cover_url (resize : Bool) (mw mh : Nat) (src : String) : String :=
  let cover_url := "https:" ++ src
  if resize then py_replace cover_url "353/569/90" (toString mw ++ "/" ++ toString mh ++ "/100")
  else py_replace cover_url "353/569/90/False/" ""

/-- `_parse_book_page_for_cover`: derive the cover URL from the first
cover-image element.  When no cover element exists, the trailing
`log.info(f"... {cover_url}")` reads the never-assigned local `cover_url`,
so the function raises `UnboundLocalError`. -/
def parse_book_page_for_cover (prefs : Prefs) (mw mh : Nat) (page : Page) :
    Except PyErr String :=
  match page.cover_elems with
  | src :: _ => .ok (derive_cover_url prefs.resize_cover mw mh src)
  | [] => .error .unbound_local_error

/-- The greedy capture of `re.match("Book (.*) - ", text)` on the text after
`"Book "`: the prefix before the last occurrence of `" - "`. -/
def last_capture (s pat : List Char) : Option (List Char) :=
  (((List.range (s.length + 1)).reverse.find? (fun k => pat.isPrefixOf (s.drop k))).map
    (fun k => s.take k))

/-- `re.match("Book (.*) - ", text)`: requires the `"Book "` prefix and a
later `" - "`; the greedy group captures up to the last `" - "`. -/
def book_index_match (t : String) : Option String :=
  if ("Book ".data).isPrefixOf t.data then
    (last_capture (t.data.drop 5) (" - ".data)).map (fun l => (⟨l⟩ : String))
  else none

/-- The series block: take the last `series product-field` element; its
nested name link (if any) gives the series name, and its sequence prefix
(if it matches the regex) gives the series index. -/
def series_info (elems : List SeriesElem) : Option String × Option String :=
  match elems.getLast? with
  | none => (none, none)
  | some last =>
    (last.name_elems.head?,
     match last.seq_prefix_elems.head? with
     | none => none
     | some t => book_index_match t)

/-- One iteration of the details loop: dispatch on the stripped label text;
the labelled entries read `x.xpath("span")[0].text`, which raises
`IndexError` when the `span` child is missing. -/
def apply_detail (m : BookMeta) (x : DetailElem) : Except PyErr BookMeta :=
  let descriptor := py_strip x.text
  if descriptor = "Release Date:" then
    match x.span_texts.head? with
    | none => .error .index_error
    | some s => .ok { m with pubdate := some (parse_only_date s) }
  else if descriptor = "ISBN:" ∨ descriptor = "Book ID:" then
    match x.span_texts.head? with
    | none => .error .index_error
    | some s => .ok { m with isbn := some s }
  else if descriptor = "Language:" then
    match x.span_texts.head? with
    | none => .error .index_error
    | some s => .ok { m with language := some s }
  else .ok m

/-- The `for` loop over the remaining detail entries. -/
def process_details : List DetailElem → BookMeta → Except PyErr BookMeta
  | [], m => .ok m
  | x :: rest, m =>
    match apply_detail m x with
    | .error e => .error e
    | .ok m2 => process_details rest m2

/-- The tags and synopsis phase of `_parse_book_page`: the genre annotations
(if any) become the tag set with `", "` collapsed to a space, and the first
synopsis container (if any) becomes the HTML comments. -/
def parse_book_page_fields (page : Page) (m3 : BookMeta) : BookMeta :=
  let m4 :=
    if page.genre_elems.isEmpty then m3
    else { m3 with tags := page.genre_elems.map (fun s => py_replace s ", " " ") }
  match page.synopsis_elems.head? with
  | none => m4
  | some syn => { m4 with comments := some syn }

/-- The tail of `_parse_book_page`: derive the cover URL (caching it when
non-empty, keyed by the record's identifier), then run the two blacklist
checks; a truthy check discards the record (`None`). -/
def parse_book_page_filter (prefs : Prefs) (mw mh : Nat) (page : Page) (title : String)
    (m5 : BookMeta) : Except PyErr (Option BookMeta × List CacheWrite) :=
  match parse_book_page_for_cover prefs mw mh page with
  | .error e => .error e
  | .ok cover_url =>
    let writes : List CacheWrite := if cover_url = "" then [] else [(m5.isbn, cover_url)]
    if option_truthy (check_title_blacklist prefs.title_blacklist title) then
      .ok (none, writes)
    else if option_truthy (check_tag_blacklist prefs.tag_blacklist m5.tags) then
      .ok (none, writes)
    else .ok (some m5, writes)

/-- `_parse_book_page`: parse a product detail page.  The result is the
parsed record (`none` when a blacklist rejected it) together with the
cover-cache writes performed on the shared host cache.  `title_elements[0]`
raises `IndexError` when the mandatory title element is absent. -/
def parse_book_page (prefs : Prefs) (mw mh : Nat) (page : Page) :
    Except PyErr (Option BookMeta × List CacheWrite) :=
  match page.title_elems with
  | [] => .error .index_error
  | t0 :: _ =>
    let title := py_strip t0
    let authors := fixauthors page.author_elems
    let m0 : BookMeta := { title := title, authors := authors }
    let si := series_info page.series_elems
    let m1 := { m0 with series := si.1, series_index := si.2 }
    let m2 :=
      match page.detail_elems with
      | [] => Except.ok m1
      | first :: rest =>
        process_details rest { m1 with publisher := some (py_strip first.text) }
    match m2 with
    | .error e => .error e
    | .ok m3 => parse_book_page_filter prefs mw mh page title (parse_book_page_fields page m3)

/-! ### Orchestrator (`_fetch_metadata`, `identify`) -/

/-- How one candidate URL resolves inside `_fetch_metadata`'s loop body:
the fetch came back `(None, _)` or search-classified (the early `return`),
an exception escaped the fetch or the parse (caught by the `except`, which
also just `return`s), or the parse finished with an optional record. -/
inductive FetchOutcome where
  | fetch_fail
  | exn
  | parsed (m : Option BookMeta)
deriving DecidableEq

/-- The outcome a URL produces when fetched through `_get_webpage` (driven
by the per-URL attempt stream `net`) and parsed by `_parse_book_page`. -/
def url_outcome (net : String → Nat → Attempt) (prefs : Prefs) (mw mh : Nat)
    (url : String) : FetchOutcome :=
  match to_py_result (get_webpage (net url)) with
  | (none, _) => .fetch_fail
  | (some page, is_search) =>
    if is_search then .fetch_fail
    else
      match parse_book_page prefs mw mh page with
      | .error _ => .exn
      | .ok (m, _) => .parsed m

/-- The candidate loop of `_fetch_metadata`: `index` increments for every
URL; a surviving record is appended tagged with the current `index`; both
failure cases hit a bare `return`, which in Python yields `None` in place of
the annotated `List[Metadata]`. -/
def fetch_metadata_loop (out : String → FetchOutcome) :
    List String → Nat → List (BookMeta × Nat) → Option (List (BookMeta × Nat))
  | [], _, results => some results
  | url :: rest, index, results =>
    match out url with
    | .fetch_fail => none
    | .exn => none
    | .parsed (some m) => fetch_metadata_loop out rest (index + 1) (results ++ [(m, index)])
    | .parsed none => fetch_metadata_loop out rest (index + 1) results

/-- `_fetch_metadata` over an already-assembled candidate URL list. -/
def fetch_metadata (out : String → FetchOutcome) (urls : List String) :
    Option (List (BookMeta × Nat)) :=
  fetch_metadata_loop out urls 0 []

/-- The tail of `identify`: iterate `for metadata in fetched_metadata` and
put each record on the result queue.  When `_fetch_metadata` hit its bare
`return`, the iteration target is `None` and the `for` statement raises
`TypeError` before anything is emitted. -/
def identify_emit (out : String → FetchOutcome) (urls : List String) :
    Except PyErr (List (BookMeta × Nat)) :=
  match fetch_metadata out urls with
  | none => .error .type_error
  | some l => .ok l

/-! ### Spec-side predicates (the claims' wording, for comparison) -/

/-- The title the parsed record carries: the first title element's text,
stripped. -/
def record_title (page : Page) : String := py_strip (page.title_elems.headD "")

/-- The tag set the parsed record carries (comma-space collapsed, empty when
the page has no genre annotations). -/
def record_tags (page : Page) : List String :=
  if page.genre_elems.isEmpty then []
  else page.genre_elems.map (fun s => py_replace s ", " " ")

/-- A string split on the space character, as a list of words. -/
def split_words (s : String) : List String :=
  (py_split_char ' ' s.data).map (fun l => (⟨l⟩ : String))

/-- The blacklist word set a comma-separated configuration string denotes:
empty configuration means no filtering, otherwise each comma-separated part
stripped and lowercased. -/
def config_blacklist (pref : String) : List String :=
  if pref = "" then [] else split_blacklist pref

/-- Claim wording: the title, lowercased with all punctuation stripped and
split into words, intersects the configured blacklist word set. -/
def spec_title_blacklisted (pref : String) (title : String) : Prop :=
  ∃ wrd ∈ config_blacklist pref, wrd ∈ split_words (py_lower (strip_punctuation title))

/-- Claim wording: some tag, lowercased, is in the configured blacklist
tag set. -/
def spec_tag_blacklisted (pref : String) (tags : List String) : Prop :=
  ∃ t ∈ tags, py_lower t ∈ config_blacklist pref

/-- The emission the amended C1 describes: the surviving records in candidate
order, each tagged with the zero-based index of its candidate URL in the
candidate list. -/
def emit_spec (out : String → FetchOutcome) (urls : List String) : List (BookMeta × Nat) :=
  (urls.enumFrom 0).filterMap
    (fun p => match out p.2 with | .parsed (some m) => some (m, p.1) | _ => none)

/-! ### Concrete sample inputs -/

def fw_url : String := "https://www.kobo.com/us/en/ebook/fourth-wing-1"
def zero_url : String := "https://www.kobo.com/us/en/ebook/the-zero-hero"
def redirect_search_url : String := "https://www.kobo.com/us/en/search?query=foo"

def prefs0 : Prefs := {}
def prefs_zero : Prefs := { title_blacklist := "zero" }
def prefs_romance : Prefs := { tag_blacklist := "romance" }
def prefs_resize : Prefs := { resize_cover := true }

def fw_page : Page :=
  { title_elems := ["Fourth Wing"], author_elems := ["Rebecca Yarros"],
    genre_elems := ["Fantasy"],
    cover_elems := ["//cdn.kobo.com/book-images/abc/353/569/90/False/fourth-wing.jpg"] }
def fw_meta : BookMeta :=
  { title := "Fourth Wing", authors := ["Rebecca Yarros"], tags := ["Fantasy"] }
def fw_w : List CacheWrite := [(none, "https://cdn.kobo.com/book-images/abc/fourth-wing.jpg")]

def zero_page : Page :=
  { title_elems := ["The Zero Hero"],
    cover_elems := ["//cdn.kobo.com/book-images/zzz/353/569/90/False/zero.jpg"] }
def zero_w : List CacheWrite := [(none, "https://cdn.kobo.com/book-images/zzz/zero.jpg")]

def romance_page : Page :=
  { title_elems := ["Nice Book"], genre_elems := ["Romance", "Action"],
    cover_elems := ["//cdn.kobo.com/book-images/rrr/353/569/90/False/r.jpg"] }

def comma_page : Page :=
  { title_elems := ["Comma Book"], genre_elems := ["A,B"],
    cover_elems := ["//cdn.kobo.com/book-images/ccc/353/569/90/False/c.jpg"] }
def comma_meta : BookMeta := { title := "Comma Book", authors := [], tags := ["A,B"] }
def comma_w : List CacheWrite := [(none, "https://cdn.kobo.com/book-images/ccc/c.jpg")]

def scifi_page : Page :=
  { title_elems := ["Space Book"], genre_elems := ["Sci-Fi, Adventure"],
    cover_elems := ["//cdn.kobo.com/book-images/sss/353/569/90/False/s.jpg"] }
def scifi_meta : BookMeta :=
  { title := "Space Book", authors := [], tags := ["Sci-Fi Adventure"] }
def scifi_w : List CacheWrite := [(none, "https://cdn.kobo.com/book-images/sss/s.jpg")]

def cover_page : Page :=
  { title_elems := ["Holly"],
    cover_elems := ["//cdn.kobo.com/book-images/44f0/353/569/90/False/holly-23.jpg"] }

def no_cover_page : Page := { title_elems := ["Holly"] }

def challenge_page : Page := { challenge_form_class := true }

/-- Attempt stream whose first two responses are challenge pages and whose
third is a normal detail page. -/
def f_mix : Nat → Attempt :=
  fun n => if n < 2 then .ok challenge_page "c" else .ok fw_page fw_url

/-- Attempt stream that always returns a challenge page. -/
def f_all : Nat → Attempt := fun _ => .ok challenge_page "c"

/-- Search pages with 4, 2 and 0 results, for the pagination scenario. -/
def sp1 : Page := { old_title_links := ["r1", "r2", "r3", "r4"] }
def sp2 : Page := { old_title_links := ["r5", "r6"] }
def sp3 : Page := ({} : Page)

/-- A storefront serving `sp1`, `sp2`, `sp3` as the three search pages for
query `"q"` and nothing else. -/
def web6 : String → Option Page × Bool := fun u =>
  if u = get_search_url prefs0 "q" 1 then (some sp1, true)
  else if u = get_search_url prefs0 "q" 2 then (some sp2, true)
  else if u = get_search_url prefs0 "q" 3 then (some sp3, true)
  else (none, false)

/-- Network for the C1 counterexample: the first candidate URL resolves to a
page whose record the blacklist discards, the second to a surviving page. -/
def net_cex : String → Nat → Attempt := fun url _ =>
  if url = zero_url then .ok zero_page zero_url
  else if url = fw_url then .ok fw_page fw_url
  else .exn

/-- Network for the C2 failing input: the first candidate URL resolves to a
detail page that parses to a record, the second redirects to a
search-classified page. -/
def net_c2 : String → Nat → Attempt := fun url _ =>
  if url = fw_url then .ok fw_page fw_url
  else .ok ({} : Page) redirect_search_url

/-- Abstract outcomes for the C1 witness: first URL survives, second is
filtered out, third survives. -/
def out_w : String → FetchOutcome := fun u =>
  if u = "a" then .parsed (some fw_meta)
  else if u = "b" then .parsed none
  else if u = "c" then .parsed (some scifi_meta)
  else .fetch_fail

/-! ## Theorems -/

/-- C1 counterexample: with candidate URLs `[zero_url, fw_url]`, the record
from `zero_url` is discarded by the title blacklist, so the first (and only)
record emitted carries relevance rank 1 — the emitted rank sequence is not
the gap-free `0, 1, ...` of emission order that the claim asserts. -/
theorem identify_rank_counterexample :
    identify_emit (url_outcome net_cex prefs_zero 1650 2200) [zero_url, fw_url] =
      .ok [(fw_meta, 1)]
    ∧ [(fw_meta, 1)].map Prod.snd ≠ List.range 1 :=
  ⟨rfl, by decide⟩

/-- C2: at the failing input — first candidate URL parses to a record,
second fetch returns a search-classified page — `_fetch_metadata` hits its
bare `return`, so `identify` iterates `None` and raises `TypeError`; the
already-parsed record (second conjunct) is never delivered, contradicting
the claimed preserve-partial-results behaviour. -/
theorem identify_failure_loses_partial_results :
    identify_emit (url_outcome net_c2 prefs0 1650 2200) [fw_url, redirect_search_url] =
      .error .type_error
    ∧ url_outcome net_c2 prefs0 1650 2200 fw_url = .parsed (some fw_meta) :=
  ⟨rfl, rfl⟩

/-- C5 counterexample: with resize on and target dimensions (1650, 2200),
the derived cover URL keeps the `/False/` path component — only the
`353/569/90` size segment is substituted — so it differs from the claimed
`.../1650/2200/100/slug.jpg`. -/
theorem cover_url_resize_counterexample :
    parse_book_page_for_cover prefs_resize 1650 2200 cover_page =
      .ok "https://cdn.kobo.com/book-images/44f0/1650/2200/100/False/holly-23.jpg"
    ∧ "https://cdn.kobo.com/book-images/44f0/1650/2200/100/False/holly-23.jpg" ≠
      "https://cdn.kobo.com/book-images/44f0/1650/2200/100/holly-23.jpg" :=
  ⟨rfl, by decide⟩

/-- C5 amended: cover-URL derivation is a pure string transform on the
scheme-prefixed image src; resize-off deletes the whole `353/569/90/False/`
segment, and resize-on with (1650, 2200) substitutes only the `353/569/90`
size segment, yielding `.../1650/2200/100/False/slug.jpg`. -/
theorem cover_url_transforms :
    parse_book_page_for_cover prefs0 1650 2200 cover_page =
      .ok "https://cdn.kobo.com/book-images/44f0/holly-23.jpg"
    ∧ parse_book_page_for_cover prefs_resize 1650 2200 cover_page =
      .ok "https://cdn.kobo.com/book-images/44f0/1650/2200/100/False/holly-23.jpg" :=
  ⟨rfl, rfl⟩

/-- C6 counterexample: a genre annotation `"A,B"` — a comma not followed by
a space — survives the `", "` replacement unchanged, so the produced record
contains a tag with a comma character. -/
theorem tag_comma_counterexample :
    parse_book_page prefs0 1650 2200 comma_page = .ok (some comma_meta, comma_w)
    ∧ comma_meta.tags = ["A,B"] ∧ py_contains "A,B" "," = true :=
  ⟨rfl, rfl, rfl⟩

/-- C8 counterexample: an empty title with a non-empty author list produces
a query with leading whitespace; re-applying the builder to that output
changes it (not idempotent); and title `"0"` with zero-stripping enabled
produces the empty query although the title is non-empty. -/
theorem generate_query_counterexample :
    generate_query false "" ["john"] = " john"
    ∧ (generate_query false "" ["john"]).data.head? = some ' '
    ∧ generate_query false (generate_query false "" ["john"]) [] ≠
        generate_query false "" ["john"]
    ∧ "0" ≠ "" ∧ generate_query true "0" [] = "" :=
  ⟨rfl, rfl, by decide, by decide, rfl⟩

/-- C9: `_parse_book_page` on a page with a valid title element but no
cover-image element raises (`UnboundLocalError`: the trailing `log.info`
reads the unassigned `cover_url`), instead of completing with the cover
field unset; the same page with a cover element parses fine, isolating the
missing cover element as the trigger. -/
theorem parse_missing_cover_raises :
    parse_book_page prefs0 1650 2200 no_cover_page = .error .unbound_local_error
    ∧ parse_book_page prefs0 1650 2200 cover_page =
      .ok (some { title := "Holly", authors := [] },
           [(none, "https://cdn.kobo.com/book-images/44f0/holly-23.jpg")]) :=
  ⟨rfl, rfl⟩

lemma get_webpage_loop_challenge_step (f : Nat → Attempt) (i fuel : Nat) (p : Page)
    (u : String) (hf : f i = .ok p u) (hc : is_challenge_page p = true) :
    get_webpage_loop f i (fuel + 1) = get_webpage_loop f (i + 1) fuel := by
  simp [get_webpage_loop, hf, hc]

lemma get_webpage_loop_all_challenge (f : Nat → Attempt) :
    ∀ fuel i, (∀ j, j < fuel → ∃ p u, f (i + j) = .ok p u ∧ is_challenge_page p = true) →
      get_webpage_loop f i fuel = .bot_challenge := by
  intro fuel
  induction fuel with
  | zero => intro i _; rfl
  | succ n ih =>
    intro i h
    obtain ⟨p, u, hf, hc⟩ := h 0 (Nat.succ_pos n)
    rw [get_webpage_loop_challenge_step f i n p u (by simpa using hf) hc]
    refine ih (i + 1) (fun j hj => ?_)
    obtain ⟨p', u', hf', hc'⟩ := h (j + 1) (Nat.succ_lt_succ hj)
    exact ⟨p', u', by rw [show i + 1 + j = i + (j + 1) by omega]; exact hf', hc'⟩

lemma get_webpage_loop_first_success (f : Nat → Attempt) :
    ∀ m fuel i, m < fuel →
      (∀ j, j < m → ∃ p u, f (i + j) = .ok p u ∧ is_challenge_page p = true) →
      ∀ p u, f (i + m) = .ok p u → is_challenge_page p = false →
        get_webpage_loop f i fuel = .success p (py_contains u "/search?") := by
  intro m
  induction m with
  | zero =>
    intro fuel i hm _ p u hf hc
    cases fuel with
    | zero => omega
    | succ n => simp [get_webpage_loop, (by simpa using hf : f i = .ok p u), hc]
  | succ k ih =>
    intro fuel i hm hprev p u hf hc
    cases fuel with
    | zero => omega
    | succ n =>
      obtain ⟨q, v, hq, hcq⟩ := hprev 0 (Nat.succ_pos k)
      rw [get_webpage_loop_challenge_step f i n q v (by simpa using hq) hcq]
      refine ih n (i + 1) (by omega) (fun j hj => ?_) p u
        (by rw [show i + 1 + k = i + (k + 1) by omega]; exact hf) hc
      obtain ⟨q', v', hq', hcq'⟩ := hprev (j + 1) (Nat.succ_lt_succ hj)
      exact ⟨q', v', by rw [show i + 1 + j = i + (j + 1) by omega]; exact hq', hcq'⟩

lemma get_webpage_loop_success_no_challenge (f : Nat → Attempt) :
    ∀ fuel i p b, get_webpage_loop f i fuel = .success p b → is_challenge_page p = false := by
  intro fuel
  induction fuel with
  | zero => intro i p b h; exact absurd h (by simp [get_webpage_loop])
  | succ n ih =>
    intro i p b h
    unfold get_webpage_loop at h
    cases hf : f i with
    | exn => rw [hf] at h; exact absurd h (by simp)
    | ok q v =>
      rw [hf] at h
      dsimp only at h
      by_cases hc : is_challenge_page q
      · rw [if_pos hc] at h; exact ih (i + 1) p b h
      · rw [if_neg hc] at h
        injection h with h1 _
        rw [← h1]
        simpa using hc

/-- C3: in `_get_webpage`, if every response before attempt `i < 15` carries
an interstitial-challenge marker and the response at attempt `i` does not,
the fetch succeeds with that response (classified by its final URL); if all
15 attempts return challenge pages, the fetch takes the give-up exit (the
spec's `BotChallengeError`, materialized as the `(None, False)` return that
aborts the calling operation); and a successful fetch never returns a
challenge page as content. -/
theorem get_webpage_challenge_retry (f : Nat → Attempt) :
    (∀ i, i < 15 → (∀ j, j < i → ∃ p u, f j = .ok p u ∧ is_challenge_page p = true) →
       ∀ p u, f i = .ok p u → is_challenge_page p = false →
         get_webpage f = .success p (py_contains u "/search?"))
    ∧ ((∀ j, j < 15 → ∃ p u, f j = .ok p u ∧ is_challenge_page p = true) →
       get_webpage f = .bot_challenge)
    ∧ (∀ p b, get_webpage f = .success p b → is_challenge_page p = false) := by
  refine ⟨?_, ?_, ?_⟩
  · intro i hi hprev p u hf hc
    exact get_webpage_loop_first_success f i 15 0 hi
      (fun j hj => by simpa using hprev j hj) p u (by simpa using hf) hc
  · intro h
    exact get_webpage_loop_all_challenge f 15 0 (fun j hj => by simpa using h j hj)
  · intro p b h
    exact get_webpage_loop_success_no_challenge f 15 0 p b h

/-- C3 witness: a stream whose first two responses are challenge pages and
whose third is a normal page succeeds with the third response; a stream of
nothing but challenge pages exhausts all 15 attempts and gives up. -/
theorem get_webpage_challenge_retry_witness :
    get_webpage f_mix = .success fw_page false ∧ get_webpage f_all = .bot_challenge := by
  constructor
  · exact (get_webpage_challenge_retry f_mix).1 2 (by decide)
      (fun j hj => ⟨challenge_page, "c", by simp [f_mix, hj], rfl⟩) fw_page fw_url rfl rfl
  · exact (get_webpage_challenge_retry f_all).2.1
      (fun j _ => ⟨challenge_page, "c", rfl, rfl⟩)

/-- C4: when the first three search pages fetch as genuine search pages, the
paginator returns the candidates they contain — in page order, truncated to
`max_matches` — and never more than `max_matches` candidates.  (The fetch
loop is bounded by construction: page 1 eagerly, then further pages only
while `page_num < 4`, so the function is total and the available results,
when fewer than requested, are returned exactly.) -/
theorem perform_query_pagination (web : String → Option Page × Bool) (prefs : Prefs)
    (query : String) (max_matches : Nat) (p1 p2 p3 : Page)
    (h1 : web (get_search_url prefs query 1) = (some p1, true))
    (h2 : web (get_search_url prefs query 2) = (some p2, true))
    (h3 : web (get_search_url prefs query 3) = (some p3, true)) :
    perform_query web prefs query max_matches =
      .ok ((parse_search_page p1 ++ parse_search_page p2 ++ parse_search_page p3).take
        max_matches)
    ∧ ∀ res, perform_query web prefs query max_matches = .ok res →
        res.length ≤ max_matches := by
  have key : perform_query web prefs query max_matches =
      .ok ((parse_search_page p1 ++ parse_search_page p2 ++ parse_search_page p3).take
        max_matches) := by
    unfold perform_query
    dsimp only
    rw [h1]
    dsimp only
    simp only [Bool.not_true, Bool.false_eq_true, if_false]
    show perform_query_loop web prefs query max_matches 2 2 (parse_search_page p1) = _
    show perform_query_loop web prefs query max_matches (1 + 1) 2 (parse_search_page p1) = _
    unfold perform_query_loop
    by_cases c1 : (parse_search_page p1).length < max_matches
    · rw [if_pos ⟨c1, by omega⟩, h2]
      show perform_query_loop web prefs query max_matches (0 + 1) 3
        (parse_search_page p1 ++ parse_search_page p2) = _
      unfold perform_query_loop
      by_cases c2 : (parse_search_page p1 ++ parse_search_page p2).length < max_matches
      · rw [if_pos ⟨c2, by omega⟩, h3]
        unfold perform_query_loop
        rw [List.append_assoc]
      · rw [if_neg (fun hcon => c2 hcon.1)]
        conv_rhs => rw [List.take_append_of_le_length (Nat.le_of_not_lt c2)]
    · rw [if_neg (fun hcon => c1 hcon.1)]
      rw [List.append_assoc]
      conv_rhs => rw [List.take_append_of_le_length (Nat.le_of_not_lt c1)]
  refine ⟨key, fun res hres => ?_⟩
  rw [key] at hres
  injection hres with hres
  rw [← hres, List.length_take]
  omega

/-- C4 witness: a storefront with 4 + 2 + 0 results over the three pages,
queried with `num_matches = 10`, yields exactly the 6 available candidates. -/
theorem perform_query_pagination_witness :
    perform_query web6 prefs0 "q" 10 = .ok ["r1", "r2", "r3", "r4", "r5", "r6"] :=
  (perform_query_pagination web6 prefs0 "q" 10 sp1 sp2 sp3 rfl rfl rfl).1

lemma fetch_metadata_loop_spec (out : String → FetchOutcome) :
    ∀ (urls : List String) (i : Nat) (acc : List (BookMeta × Nat)),
      (∀ u ∈ urls, ∃ m, out u = .parsed m) →
      fetch_metadata_loop out urls i acc =
        some (acc ++ (urls.enumFrom i).filterMap
          (fun p => match out p.2 with | .parsed (some m) => some (m, p.1) | _ => none)) := by
  intro urls
  induction urls with
  | nil => intro i acc _; simp [fetch_metadata_loop]
  | cons u rest ih =>
    intro i acc h
    obtain ⟨m, hm⟩ := h u (by simp)
    cases m with
    | some m0 =>
      have step : fetch_metadata_loop out (u :: rest) i acc =
          fetch_metadata_loop out rest (i + 1) (acc ++ [(m0, i)]) := by
        simp [fetch_metadata_loop, hm]
      rw [step, ih (i + 1) _ (fun v hv => h v (by simp [hv]))]
      simp [List.enumFrom, hm]
    | none =>
      have step : fetch_metadata_loop out (u :: rest) i acc =
          fetch_metadata_loop out rest (i + 1) acc := by
        simp [fetch_metadata_loop, hm]
      rw [step, ih (i + 1) _ (fun v hv => h v (by simp [hv]))]
      simp [List.enumFrom, hm]

/-- C1 amended: in a run where every candidate URL fetches and parses
without failure, `identify` emits exactly the surviving records in candidate
order, each tagged with the zero-based index of its candidate URL in the
candidate list — so the rank sequence is strictly increasing but skips the
indices of candidates that yielded no record. -/
theorem identify_rank_is_candidate_index (out : String → FetchOutcome)
    (urls : List String) (h : ∀ u ∈ urls, ∃ m, out u = .parsed m) :
    identify_emit out urls = .ok (emit_spec out urls) := by
  unfold identify_emit fetch_metadata emit_spec
  rw [fetch_metadata_loop_spec out urls 0 [] h]
  simp

/-- C1 witness: three candidates of which the middle one is filtered out;
the survivors are emitted with ranks 0 and 2. -/
theorem identify_rank_witness :
    identify_emit out_w ["a", "b", "c"] = .ok [(fw_meta, 0), (scifi_meta, 2)] := by
  have h := identify_rank_is_candidate_index out_w ["a", "b", "c"] (by
    intro u hu
    simp only [List.mem_cons, List.not_mem_nil, or_false] at hu
    rcases hu with rfl | rfl | rfl
    · exact ⟨some fw_meta, rfl⟩
    · exact ⟨none, rfl⟩
    · exact ⟨some scifi_meta, rfl⟩)
  exact h

lemma apply_detail_tags (m : BookMeta) (x : DetailElem) (m' : BookMeta)
    (h : apply_detail m x = .ok m') : m'.tags = m.tags := by
  unfold apply_detail at h
  dsimp only at h
  split at h <;> (try split at h) <;> (try split at h) <;> (try split at h) <;>
    (simp at h <;> (subst h; rfl))

lemma process_details_tags : ∀ (items : List DetailElem) (m m' : BookMeta),
    process_details items m = .ok m' → m'.tags = m.tags := by
  intro items
  induction items with
  | nil =>
    intro m m' h
    unfold process_details at h
    injection h with h
    rw [← h]
  | cons x rest ih =>
    intro m m' h
    unfold process_details at h
    cases ha : apply_detail m x with
    | error e => rw [ha] at h; exact absurd h (by simp)
    | ok m2 => rw [ha] at h; rw [ih m2 m' h, apply_detail_tags m x m2 ha]

lemma replace_fuel_ne_head (pat rep : List Char) (c : Char) (rest : List Char)
    (fuel : Nat) (hc : pat.head? ≠ some c) :
    replace_fuel pat rep (fuel + 1) (c :: rest) = c :: replace_fuel pat rep fuel rest := by
  cases pat with
  | nil => simp [replace_fuel]
  | cons p pt =>
    have hpc : p ≠ c := by simpa using hc
    simp [replace_fuel, List.isPrefixOf, hpc]

lemma py_replace_head (pat rep : String) (c : Char) (rest : List Char) (s : String)
    (hs : s.data = c :: rest) (hc : pat.data.head? ≠ some c) :
    ∃ tail, (py_replace s pat rep).data = c :: tail := by
  unfold py_replace
  rw [hs, List.length_cons, replace_fuel_ne_head pat.data rep.data c rest rest.length hc]
  exact ⟨_, rfl⟩

lemma derive_cover_url_ne_empty (resize : Bool) (mw mh : Nat) (src : String) :
    derive_cover_url resize mw mh src ≠ "" := by
  have hd : ("https:" ++ src).data = 'h' :: ("ttps:" ++ src).data := rfl
  unfold derive_cover_url
  intro heq
  cases resize with
  | true =>
    rw [if_pos rfl] at heq
    obtain ⟨tail, htail⟩ := py_replace_head "353/569/90"
      (toString mw ++ "/" ++ toString mh ++ "/100") 'h' _ _ hd (by decide)
    rw [heq] at htail
    exact absurd htail (by simp)
  | false =>
    rw [if_neg (by simp)] at heq
    obtain ⟨tail, htail⟩ := py_replace_head "353/569/90/False/" "" 'h' _ _ hd (by decide)
    rw [heq] at htail
    exact absurd htail (by simp)

lemma count_replace_fuel_le (pat rep : List Char) (c : Char) (hc : rep.count c = 0) :
    ∀ (fuel : Nat) (s : List Char), (replace_fuel pat rep fuel s).count c ≤ s.count c := by
  intro fuel
  induction fuel with
  | zero => intro s; cases s <;> simp [replace_fuel]
  | succ n ih =>
    intro s
    cases s with
    | nil => simp [replace_fuel]
    | cons a rest =>
      unfold replace_fuel
      split
      · rw [List.count_append, hc, Nat.zero_add]
        exact le_trans (ih _) (((a :: rest).drop_sublist pat.length).count_le c)
      · rw [List.count_cons, List.count_cons]
        exact Nat.add_le_add_right (ih rest) _

lemma mem_split_words_iff (w s : String) :
    w ∈ split_words s ↔ w.data ∈ py_split_char ' ' s.data := by
  unfold split_words
  constructor
  · intro hm
    obtain ⟨l, hl, rfl⟩ := List.mem_map.mp hm
    exact hl
  · intro hm
    exact List.mem_map.mpr ⟨w.data, hm, rfl⟩

lemma contains_iff_mem_chars (l : List (List Char)) (x : List Char) :
    l.contains x = true ↔ x ∈ l := by
  simp [List.contains, List.elem_iff]

lemma truthy_title_iff (pref title : String) :
    option_truthy (check_title_blacklist pref title) = true ↔
      spec_title_blacklisted pref title := by
  unfold check_title_blacklist spec_title_blacklisted config_blacklist option_truthy
  by_cases hp : pref = ""
  · simp [hp]
  · rw [if_neg hp, if_neg hp]
    dsimp only
    rw [Bool.not_eq_true', List.isEmpty_eq_false]
    constructor
    · intro hne
      obtain ⟨w, hw⟩ := List.exists_mem_of_ne_nil _ hne
      have hmem := List.mem_filter.mp hw
      exact ⟨w, hmem.1,
        (mem_split_words_iff w _).mpr ((contains_iff_mem_chars _ _).mp hmem.2)⟩
    · rintro ⟨w, hwb, hww⟩ hnil
      have hmem : w ∈ (split_blacklist pref).filter
          (fun v => (py_split_char ' ' (py_lower (strip_punctuation title)).data).contains
            v.data) :=
        List.mem_filter.mpr
          ⟨hwb, (contains_iff_mem_chars _ _).mpr ((mem_split_words_iff w _).mp hww)⟩
      rw [hnil] at hmem
      exact absurd hmem (List.not_mem_nil w)

lemma truthy_tag_iff (pref : String) (tags : List String) :
    option_truthy (check_tag_blacklist pref tags) = true ↔
      spec_tag_blacklisted pref tags := by
  unfold check_tag_blacklist spec_tag_blacklisted config_blacklist option_truthy
  by_cases hp : pref = ""
  · simp [hp]
  · rw [if_neg hp, if_neg hp]
    dsimp only
    rw [Bool.not_eq_true', List.isEmpty_eq_false]
    constructor
    · intro hne
      obtain ⟨b, hb⟩ := List.exists_mem_of_ne_nil _ hne
      have hmem := List.mem_filter.mp hb
      have hbmem : b ∈ tags.map py_lower := by
        simpa [List.contains, List.elem_iff] using hmem.2
      obtain ⟨t, ht, hteq⟩ := List.mem_map.mp hbmem
      exact ⟨t, ht, by rw [hteq]; exact hmem.1⟩
    · rintro ⟨t, ht, htb⟩ hnil
      have hcont : (tags.map py_lower).contains (py_lower t) = true := by
        simp only [List.contains, List.elem_iff]
        exact List.mem_map_of_mem py_lower ht
      have hmem : py_lower t ∈ (split_blacklist pref).filter
          (fun b => (tags.map py_lower).contains b) :=
        List.mem_filter.mpr ⟨htb, hcont⟩
      rw [hnil] at hmem
      exact absurd hmem (List.not_mem_nil _)

lemma parse_book_page_for_cover_ok (prefs : Prefs) (mw mh : Nat) (page : Page)
    (c : String) (h : parse_book_page_for_cover prefs mw mh page = .ok c) :
    ∃ src rest, page.cover_elems = src :: rest ∧
      c = derive_cover_url prefs.resize_cover mw mh src := by
  unfold parse_book_page_for_cover at h
  cases hce : page.cover_elems with
  | nil => rw [hce] at h; exact absurd h (by simp)
  | cons src rest =>
    rw [hce] at h
    dsimp only at h
    injection h with h
    exact ⟨src, rest, rfl, h.symm⟩

lemma parse_book_page_filter_shape (prefs : Prefs) (mw mh : Nat) (page : Page)
    (title : String) (m5 : BookMeta) (r : Option BookMeta) (w : List CacheWrite)
    (h : parse_book_page_filter prefs mw mh page title m5 = .ok (r, w)) :
    ∃ src rest, page.cover_elems = src :: rest ∧
      w = [(m5.isbn, derive_cover_url prefs.resize_cover mw mh src)] ∧
      (r = none ↔ (spec_title_blacklisted prefs.title_blacklist title ∨
                   spec_tag_blacklisted prefs.tag_blacklist m5.tags)) ∧
      (r = some m5 ∨ r = none) := by
  unfold parse_book_page_filter at h
  cases hc : parse_book_page_for_cover prefs mw mh page with
  | error e => rw [hc] at h; exact absurd h (by simp)
  | ok cover_url =>
    rw [hc] at h
    dsimp only at h
    obtain ⟨src, rest, hce, hcu⟩ := parse_book_page_for_cover_ok prefs mw mh page cover_url hc
    subst hcu
    rw [if_neg (derive_cover_url_ne_empty _ _ _ _)] at h
    refine ⟨src, rest, hce, ?_⟩
    by_cases c1 : option_truthy (check_title_blacklist prefs.title_blacklist title) = true
    · rw [if_pos c1] at h
      injection h with h
      injection h with hr hw
      exact ⟨hw.symm, ⟨fun _ => Or.inl ((truthy_title_iff _ _).mp c1), fun _ => hr.symm⟩,
        Or.inr hr.symm⟩
    · rw [if_neg c1] at h
      by_cases c2 : option_truthy (check_tag_blacklist prefs.tag_blacklist m5.tags) = true
      · rw [if_pos c2] at h
        injection h with h
        injection h with hr hw
        exact ⟨hw.symm, ⟨fun _ => Or.inr ((truthy_tag_iff _ _).mp c2), fun _ => hr.symm⟩,
          Or.inr hr.symm⟩
      · rw [if_neg c2] at h
        injection h with h
        injection h with hr hw
        refine ⟨hw.symm, ⟨fun hrn => ?_, fun hd => ?_⟩, Or.inl hr.symm⟩
        · rw [← hr] at hrn
          exact absurd hrn (by simp)
        · rcases hd with hd | hd
          · exact absurd ((truthy_title_iff _ _).mpr hd) c1
          · exact absurd ((truthy_tag_iff _ _).mpr hd) c2

lemma parse_book_page_fields_tags (page : Page) (m3 : BookMeta) (h : m3.tags = []) :
    (parse_book_page_fields page m3).tags = record_tags page := by
  unfold parse_book_page_fields record_tags
  cases hs : page.synopsis_elems.head? <;> by_cases hg : page.genre_elems.isEmpty <;>
    simp [hs, hg, h]

lemma parse_book_page_shape (prefs : Prefs) (mw mh : Nat) (page : Page)
    (r : Option BookMeta) (w : List CacheWrite)
    (h : parse_book_page prefs mw mh page = .ok (r, w)) :
    ∃ t0 trest m3, page.title_elems = t0 :: trest ∧ m3.tags = [] ∧
      parse_book_page_filter prefs mw mh page (py_strip t0)
        (parse_book_page_fields page m3) = .ok (r, w) := by
  unfold parse_book_page at h
  cases hte : page.title_elems with
  | nil => rw [hte] at h; exact absurd h (by simp)
  | cons t0 trest =>
    rw [hte] at h
    dsimp only at h
    cases hde : page.detail_elems with
    | nil =>
      rw [hde] at h
      dsimp only at h
      exact ⟨t0, trest, _, rfl, rfl, h⟩
    | cons d1 drest =>
      rw [hde] at h
      dsimp only at h
      split at h
      · exact absurd h (by simp)
      next m3 heq =>
        exact ⟨t0, trest, m3, rfl, by rw [process_details_tags _ _ _ heq], h⟩

/-- C6 amended: each surviving record's tags are the page's genre
annotations with every left-to-right occurrence of the two-character
sequence `", "` (comma-space) replaced by a space; the replacement never
introduces new commas, but a comma not followed by a space is preserved, so
a tag may still contain a comma. -/
theorem parse_tags_comma_space (prefs : Prefs) (mw mh : Nat) (page : Page)
    (m : BookMeta) (w : List CacheWrite)
    (h : parse_book_page prefs mw mh page = .ok (some m, w)) :
    m.tags = record_tags page
    ∧ ∀ s : String, (py_replace s ", " " ").data.count ',' ≤ s.data.count ',' := by
  obtain ⟨t0, trest, m3, hte, hm3, hfil⟩ := parse_book_page_shape prefs mw mh page _ w h
  obtain ⟨src, rest2, hce, hw, hiff, hr⟩ :=
    parse_book_page_filter_shape _ _ _ _ _ _ _ _ hfil
  constructor
  · rcases hr with hr | hr
    · injection hr with hr
      rw [hr]
      exact parse_book_page_fields_tags page m3 hm3
    · exact absurd hr (by simp)
  · intro s
    exact count_replace_fuel_le (", ".data) (" ".data) ',' (by decide) _ _

/-- C6 witness: a genre annotation `"Sci-Fi, Adventure"` (comma-space) is
stored as the tag `"Sci-Fi Adventure"`, and the replacement does not
increase the comma count. -/
theorem parse_tags_comma_space_witness :
    scifi_meta.tags = ["Sci-Fi Adventure"]
    ∧ (py_replace "Sci-Fi, Adventure" ", " " ").data.count ',' ≤
      ("Sci-Fi, Adventure" : String).data.count ',' := by
  have h := parse_tags_comma_space prefs0 1650 2200 scifi_page scifi_meta scifi_w rfl
  exact ⟨by rw [h.1]; rfl, h.2 "Sci-Fi, Adventure"⟩

/-- C7: a successfully parsed page's record is discarded exactly when the
record's title — lowercased, punctuation-stripped, split into words —
intersects the configured title-blacklist word set, or some tag, lowercased,
is in the configured tag-blacklist set; empty configurations denote empty
sets and reject nothing. -/
theorem parse_reject_iff_blacklist (prefs : Prefs) (mw mh : Nat) (page : Page)
    (r : Option BookMeta) (w : List CacheWrite)
    (h : parse_book_page prefs mw mh page = .ok (r, w)) :
    r = none ↔ (spec_title_blacklisted prefs.title_blacklist (record_title page) ∨
                spec_tag_blacklisted prefs.tag_blacklist (record_tags page)) := by
  obtain ⟨t0, trest, m3, hte, hm3, hfil⟩ := parse_book_page_shape prefs mw mh page r w h
  obtain ⟨src, rest2, hce, hw, hiff, hr⟩ :=
    parse_book_page_filter_shape _ _ _ _ _ _ _ _ hfil
  rw [parse_book_page_fields_tags page m3 hm3] at hiff
  have ht : record_title page = py_strip t0 := by
    unfold record_title
    rw [hte]
    rfl
  rw [ht]
  exact hiff

/-- C7 witness: title "The Zero Hero" is rejected under blacklisted word
"zero"; tags Romance and Action are rejected under blacklisted tag
"romance"; and with both blacklists empty the record survives. -/
theorem parse_reject_iff_blacklist_witness :
    (spec_title_blacklisted "zero" (record_title zero_page) ∨
     spec_tag_blacklisted "" (record_tags zero_page))
    ∧ (spec_title_blacklisted "" (record_title romance_page) ∨
       spec_tag_blacklisted "romance" (record_tags romance_page))
    ∧ ¬(spec_title_blacklisted "" (record_title fw_page) ∨
        spec_tag_blacklisted "" (record_tags fw_page)) := by
  refine ⟨?_, ?_, ?_⟩
  · exact (parse_reject_iff_blacklist prefs_zero 1650 2200 zero_page none zero_w rfl).mp rfl
  · exact (parse_reject_iff_blacklist prefs_romance 1650 2200 romance_page none
      [(none, "https://cdn.kobo.com/book-images/rrr/r.jpg")] rfl).mp rfl
  · intro hd
    have hcontra :=
      (parse_reject_iff_blacklist prefs0 1650 2200 fw_page (some fw_meta) fw_w rfl).mpr hd
    exact absurd hcontra (by simp)

/-- C10: whenever a parsed page's record is discarded by a blacklist, the
parse has nevertheless written the derived cover URL to the
identifier-to-cover-URL cache — the cover derivation and cache write run
before the blacklist checks, so discarding a record is not free of side
effects on the shared cache. -/
theorem parse_reject_still_writes_cover_cache (prefs : Prefs) (mw mh : Nat) (page : Page)
    (w : List CacheWrite) (h : parse_book_page prefs mw mh page = .ok (none, w)) :
    ∃ src key, page.cover_elems.head? = some src ∧
      w = [(key, derive_cover_url prefs.resize_cover mw mh src)] := by
  obtain ⟨t0, trest, m3, hte, hm3, hfil⟩ := parse_book_page_shape prefs mw mh page none w h
  obtain ⟨src, rest2, hce, hw, _, _⟩ :=
    parse_book_page_filter_shape _ _ _ _ _ _ _ _ hfil
  exact ⟨src, _, by rw [hce]; rfl, hw⟩

/-- C10 witness: the blacklisted "The Zero Hero" page is discarded, yet its
derived cover URL has been written to the cache. -/
theorem parse_reject_cache_witness :
    ∃ src key, zero_page.cover_elems.head? = some src ∧
      zero_w = [(key, derive_cover_url false 1650 2200 src)] :=
  parse_reject_still_writes_cover_cache prefs_zero 1650 2200 zero_page zero_w rfl

lemma py_split_char_ne_nil (sep : Char) : ∀ l, py_split_char sep l ≠ [] := by
  intro l
  induction l with
  | nil => simp [py_split_char]
  | cons c rest ih =>
    unfold py_split_char
    by_cases hc : c = sep
    · simp [hc]
    · rw [if_neg hc]
      cases hr : py_split_char sep rest with
      | nil => simp
      | cons h t => simp

lemma py_split_char_pieces (sep : Char) :
    ∀ l piece, piece ∈ py_split_char sep l → sep ∉ piece := by
  intro l
  induction l with
  | nil =>
    intro piece hp
    simp [py_split_char] at hp
    simp [hp]
  | cons c rest ih =>
    intro piece hp
    unfold py_split_char at hp
    by_cases hc : c = sep
    · rw [if_pos hc] at hp
      rcases List.mem_cons.mp hp with rfl | hp
      · simp
      · exact ih piece hp
    · rw [if_neg hc] at hp
      cases hr : py_split_char sep rest with
      | nil => exact absurd hr (py_split_char_ne_nil sep rest)
      | cons hd tl =>
        rw [hr] at hp
        dsimp only at hp
        rcases List.mem_cons.mp hp with rfl | hp
        · intro hmem
          rcases List.mem_cons.mp hmem with rfl | hmem
          · exact hc rfl
          · exact ih hd (by rw [hr]; exact List.mem_cons_self hd tl) hmem
        · exact ih piece (by rw [hr]; exact List.mem_cons_of_mem hd hp)

lemma py_split_char_single (sep : Char) : ∀ l, sep ∉ l → py_split_char sep l = [l] := by
  intro l
  induction l with
  | nil => intro _; rfl
  | cons c rest ih =>
    intro hmem
    have hc : c ≠ sep := fun hcc => hmem (hcc ▸ List.mem_cons_self c rest)
    unfold py_split_char
    rw [if_neg hc, ih (fun hs => hmem (List.mem_cons_of_mem c hs))]

lemma py_split_char_append (sep : Char) :
    ∀ l t, sep ∉ l → py_split_char sep (l ++ sep :: t) = l :: py_split_char sep t := by
  intro l
  induction l with
  | nil =>
    intro t _
    show py_split_char sep (sep :: t) = [] :: py_split_char sep t
    simp [py_split_char]
  | cons c l' ih =>
    intro t hmem
    have hc : c ≠ sep := fun hcc => hmem (hcc ▸ List.mem_cons_self c l')
    have ih' := ih t (fun hs => hmem (List.mem_cons_of_mem c hs))
    show py_split_char sep (c :: (l' ++ sep :: t)) = (c :: l') :: py_split_char sep t
    simp [py_split_char, hc, ih']

lemma join_sp_ne_nil : ∀ L, L ≠ [] → (∀ l ∈ L, l ≠ []) → join_sp L ≠ [] := by
  intro L hL hne
  cases L with
  | nil => exact absurd rfl hL
  | cons l rest =>
    cases rest with
    | nil => exact hne l (List.mem_cons_self l [])
    | cons l2 rest2 => simp [join_sp]

lemma join_sp_head : ∀ L, (∀ l ∈ L, l ≠ []) → (∀ l ∈ L, ' ' ∉ l) →
    (join_sp L).head? ≠ some ' ' := by
  intro L hne hsp
  cases L with
  | nil => simp [join_sp]
  | cons l rest =>
    have hl : l ≠ [] := hne l (List.mem_cons_self l rest)
    have hls : ' ' ∉ l := hsp l (List.mem_cons_self l rest)
    cases rest with
    | nil =>
      cases l with
      | nil => exact absurd rfl hl
      | cons c lt =>
        show some c ≠ some ' '
        intro hcc
        injection hcc with hcc
        exact hls (hcc ▸ List.mem_cons_self c lt)
    | cons l2 rest2 =>
      show ((l ++ ' ' :: join_sp (l2 :: rest2)).head?) ≠ some ' '
      cases l with
      | nil => exact absurd rfl hl
      | cons c lt =>
        show some c ≠ some ' '
        intro hcc
        injection hcc with hcc
        exact hls (hcc ▸ List.mem_cons_self c lt)

lemma getLast?_not_mem (c : Char) : ∀ l : List Char, c ∉ l → l.getLast? ≠ some c := by
  intro l
  induction l with
  | nil => intro _; simp
  | cons a rest ih =>
    intro hmem
    cases rest with
    | nil =>
      show some a ≠ some c
      intro hac
      injection hac with hac
      exact hmem (hac ▸ List.mem_cons_self a [])
    | cons b t =>
      rw [List.getLast?_cons_cons]
      exact ih (fun hs => hmem (List.mem_cons_of_mem a hs))

lemma join_sp_getLast : ∀ L, (∀ l ∈ L, l ≠ []) → (∀ l ∈ L, ' ' ∉ l) →
    (join_sp L).getLast? ≠ some ' ' := by
  intro L
  induction L with
  | nil => intro _ _; simp [join_sp]
  | cons l rest ih =>
    intro hne hsp
    cases rest with
    | nil =>
      exact getLast?_not_mem ' ' l (hsp l (List.mem_cons_self l []))
    | cons l2 rest2 =>
      show ((l ++ ' ' :: join_sp (l2 :: rest2)).getLast?) ≠ some ' '
      have hJ : join_sp (l2 :: rest2) ≠ [] :=
        join_sp_ne_nil (l2 :: rest2) (by simp)
          (fun x hx => hne x (List.mem_cons_of_mem l hx))
      rw [List.getLast?_append_of_ne_nil _ (by simp)]
      have h2 : (' ' :: join_sp (l2 :: rest2)) = [' '] ++ join_sp (l2 :: rest2) := rfl
      rw [h2, List.getLast?_append_of_ne_nil _ hJ]
      exact ih (fun x hx => hne x (List.mem_cons_of_mem l hx))
        (fun x hx => hsp x (List.mem_cons_of_mem l hx))

lemma py_split_char_join : ∀ L, L ≠ [] → (∀ l ∈ L, l ≠ []) → (∀ l ∈ L, ' ' ∉ l) →
    py_split_char ' ' (join_sp L) = L := by
  intro L
  induction L with
  | nil => intro hL _ _; exact absurd rfl hL
  | cons l rest ih =>
    intro _ hne hsp
    cases rest with
    | nil => exact py_split_char_single ' ' l (hsp l (List.mem_cons_self l []))
    | cons l2 rest2 =>
      show py_split_char ' ' (l ++ ' ' :: join_sp (l2 :: rest2)) = l :: l2 :: rest2
      rw [py_split_char_append ' ' l _ (hsp l (List.mem_cons_self l _))]
      rw [ih (by simp) (fun x hx => hne x (List.mem_cons_of_mem l hx))
        (fun x hx => hsp x (List.mem_cons_of_mem l hx))]

lemma join_sp_append : ∀ T A : List (List Char), T ≠ [] → A ≠ [] →
    join_sp (T ++ A) = join_sp T ++ ' ' :: join_sp A := by
  intro T
  induction T with
  | nil => intro A hT _; exact absurd rfl hT
  | cons t rest ih =>
    intro A _ hA
    cases rest with
    | nil =>
      cases A with
      | nil => exact absurd rfl hA
      | cons a A' => rfl
    | cons t2 rest2 =>
      show t ++ ' ' :: join_sp ((t2 :: rest2) ++ A) =
        (t ++ ' ' :: join_sp (t2 :: rest2)) ++ ' ' :: join_sp A
      rw [ih A (by simp) hA, List.append_assoc]
      rfl

lemma generate_query_of_join (L : List (List Char)) (hL : L ≠ [])
    (hne : ∀ l ∈ L, l ≠ []) (hsp : ∀ l ∈ L, ' ' ∉ l) :
    generate_query false (⟨join_sp L⟩ : String) [] = (⟨join_sp L⟩ : String) := by
  have htok : get_title_tokens (⟨join_sp L⟩ : String) = L := by
    unfold get_title_tokens
    show (py_split_char ' ' (join_sp L)).filter (· ≠ []) = L
    rw [py_split_char_join L hL hne hsp]
    exact List.filter_eq_self.mpr (fun x hx => by simpa using hne x hx)
  have hmap : L.map (fun x : List Char => if (false : Bool) then lstrip_zeroes x else x) = L := by
    rw [show (fun x : List Char => if (false : Bool) then lstrip_zeroes x else x) =
      (fun x : List Char => x) from funext (fun x => by simp)]
    exact List.map_id' L
  unfold generate_query
  rw [htok, hmap]
  rfl

/-- C8 amended: under zero-strip off, whenever the title yields at least one
token and the author list is empty or yields at least one token, the built
query has no leading or trailing whitespace, is non-empty, and rebuilding a
query from it (with no authors) returns it unchanged.  (An empty-tokenizing
title with authors yields a leading space, and zero-stripping can empty an
all-zeroes token, which is why those hypotheses are needed.) -/
theorem generate_query_normalized (title : String) (authors : List String)
    (ht : get_title_tokens title ≠ [])
    (ha : authors = [] ∨ get_author_tokens authors ≠ []) :
    (generate_query false title authors).data.head? ≠ some ' '
    ∧ (generate_query false title authors).data.getLast? ≠ some ' '
    ∧ generate_query false title authors ≠ ""
    ∧ generate_query false (generate_query false title authors) [] =
        generate_query false title authors := by
  have hTne : ∀ l ∈ get_title_tokens title, l ≠ [] := fun l hl => by
    simpa using (List.mem_filter.mp hl).2
  have hTsp : ∀ l ∈ get_title_tokens title, ' ' ∉ l := fun l hl =>
    py_split_char_pieces ' ' title.data l (List.mem_filter.mp hl).1
  have hAne : ∀ l ∈ get_author_tokens authors, l ≠ [] := fun l hl => by
    simpa using (List.mem_filter.mp hl).2
  have hAsp : ∀ l ∈ get_author_tokens authors, ' ' ∉ l := fun l hl => by
    obtain ⟨s, _, hmem⟩ := List.mem_flatMap.mp (List.mem_filter.mp hl).1
    exact py_split_char_pieces ' ' s l hmem
  have hmapT : (get_title_tokens title).map
      (fun x : List Char => if (false : Bool) then lstrip_zeroes x else x) =
      get_title_tokens title := by
    rw [show (fun x : List Char => if (false : Bool) then lstrip_zeroes x else x) =
      (fun x : List Char => x) from funext (fun x => by simp)]
    exact List.map_id' _
  obtain ⟨L, hLne, hLgne, hLgsp, hq⟩ :
      ∃ L, L ≠ [] ∧ (∀ l ∈ L, l ≠ []) ∧ (∀ l ∈ L, ' ' ∉ l) ∧
        generate_query false title authors = (⟨join_sp L⟩ : String) := by
    by_cases hA : authors.isEmpty
    · refine ⟨get_title_tokens title, ht, hTne, hTsp, ?_⟩
      unfold generate_query
      dsimp only
      rw [if_pos hA, hmapT]
    · have hAne' : get_author_tokens authors ≠ [] := ha.resolve_left (by
        intro h0
        rw [h0] at hA
        exact hA rfl)
      refine ⟨get_title_tokens title ++ get_author_tokens authors, by simp [ht],
        fun l hl => (List.mem_append.mp hl).elim (hTne l) (hAne l),
        fun l hl => (List.mem_append.mp hl).elim (hTsp l) (hAsp l), ?_⟩
      unfold generate_query
      dsimp only
      rw [if_neg hA, hmapT, join_sp_append _ _ ht hAne']
  rw [hq]
  refine ⟨join_sp_head L hLgne hLgsp, join_sp_getLast L hLgne hLgsp, ?_, ?_⟩
  · intro h0
    exact join_sp_ne_nil L hLne hLgne (congrArg String.data h0)
  · exact generate_query_of_join L hLne hLgne hLgsp

/-- C8 witness: a well-formed title and author list build the expected
query, which has no edge whitespace, is non-empty, and is a fixed point of
the builder. -/
theorem generate_query_normalized_witness :
    generate_query false "fourth wing" ["rebecca yarros"] = "fourth wing rebecca yarros"
    ∧ (generate_query false "fourth wing" ["rebecca yarros"]).data.head? ≠ some ' '
    ∧ (generate_query false "fourth wing" ["rebecca yarros"]).data.getLast? ≠ some ' '
    ∧ generate_query false "fourth wing" ["rebecca yarros"] ≠ ""
    ∧ generate_query false (generate_query false "fourth wing" ["rebecca yarros"]) [] =
        generate_query false "fourth wing" ["rebecca yarros"] := by
  have h := generate_query_normalized "fourth wing" ["rebecca yarros"] (by decide)
    (Or.inr (by decide))
  exact ⟨rfl, h.1, h.2.1, h.2.2.1, h.2.2.2⟩

end Kobo
